import Mathlib

/-!
# Verification of the PyMUST transmit-delay core (txdelay3)

Shallow embedding of src/pymust/txdelay3.py over exact real arithmetic.
Lists of reals stand for the numpy row vectors, `Except` models the
Python failure modes that the function actually raises.

Python peculiarities modelled faithfully:
* At three places the source builds a `ValueError(...)` without `raise`-ing
  it; execution then continues and crashes later with an
  `UnboundLocalError` on a never-assigned local. The corresponding error
  constructors record what really happens.
* In line-focus mode `np.sign(z0)` is a (2,1) array, so
  `-d/c*np.sign(z0)` broadcasts to a (2,N) matrix: the function returns
  two rows of delays, each normalized against its own row minimum.
* The plaid-grid test for diverging waves compares only the sorted x- and
  y-coordinate multisets against those of the mesh grid.
-/

namespace PyMUST

/-- The failure modes of the Python code, as they actually surface. -/
inductive PyErr
  /-- `UnboundLocalError`: a `ValueError(...)` was built but never raised,
  and control later reads a local (`param` or `d`) that was never assigned. -/
  | unboundLocal
  /-- AssertionError: PARAM must be a structure. -/
  | assertParamStruct
  /-- AssertionError: X0, Y0, and Z0 must have the same length. -/
  | assertSameLength
  /-- AssertionError: the tilt angles must verify |TILTx| and |TILTy| < pi/2. -/
  | assertTilt
  /-- AssertionError: the solid angle must be in [0, 2pi]. -/
  | assertSolidAngle
  /-- AssertionError: the elements must be on a plaid grid. -/
  | assertPlaid
  /-- numpy broadcasting failure when comparing arrays of incompatible sizes. -/
  | broadcastError
  /-- missing PARAM.width / PARAM.height attribute. -/
  | missingAttr
  /-- The `ValueError('Wrong input arguments.')` the dispatcher builds but
  never raises: unreachable in the code as written. -/
  | valueErrorWrongArgs
  /-- The `ValueError('X0, Y0, and Z0 must have 1 or 2 elements.')` the focus
  branch builds but never raises: unreachable in the code as written. -/
  | valueErrorTargetLen
deriving DecidableEq

/-- One positional argument of `txdelay3`, abstracted to whether it is a
`utils.Param` structure or some other (numeric) value. -/
inductive Arg
  | param
  | num
deriving DecidableEq

/-- The three beam modes selected by the dispatcher. -/
inductive Mode
  | origo
  | plane
  | diverging
deriving DecidableEq

/-- The argument dispatcher of `txdelay3` (lines 153-171 of the source).
For unrecognised arities the source evaluates `ValueError(...)` without
raising it, and then crashes on `assert isinstance(param, utils.Param)`
with `param` unassigned, i.e. an `UnboundLocalError`. -/
def dispatch : List Arg → Except PyErr Mode
  | [a0, _, _, a3] =>
    if a3 = Arg.param then .ok Mode.origo
    else if a0 = Arg.param then .ok Mode.diverging
    else .error .unboundLocal
  | [a0, _, _] =>
    if a0 = Arg.param then .ok Mode.plane else .error .assertParamStruct
  | _ => .error .unboundLocal

section PlaidGrid

variable {α : Type} [LinearOrder α] [DecidableEq α]

/-- `np.sort` on a 1-D array. -/
def npsort (l : List α) : List α := List.insertionSort (· ≤ ·) l

/-- `np.unique`: the sorted list of distinct values. -/
def npunique (l : List α) : List α := npsort l.dedup

/-- The flattened first output of `np.meshgrid(np.unique(xe), np.unique(ye))`:
the unique x-row repeated once per unique y-value. -/
def gridXFlat (xe ye : List α) : List α :=
  (List.replicate (npunique ye).length (npunique xe)).flatten

/-- The flattened second output of `np.meshgrid(np.unique(xe), np.unique(ye))`:
each unique y-value repeated once per unique x-value. -/
def gridYFlat (xe ye : List α) : List α :=
  (npunique ye).flatMap fun y => List.replicate (npunique xe).length y

/-- `np.all(a == b)` for two 1-D arrays, with numpy broadcasting: equal
lengths compare elementwise, a length-1 array broadcasts, anything else
raises a broadcasting `ValueError`. -/
def numpyAllEq (a b : List α) : Except PyErr Bool :=
  if a.length = b.length then .ok (decide (a = b))
  else
    match a, b with
    | [v], bb => .ok (bb.all fun x => decide (x = v))
    | aa, [v] => .ok (aa.all fun x => decide (x = v))
    | _, _ => .error .broadcastError

/-- The plaid-grid test of the diverging-wave branch (lines 210-215):
compare the sorted flattened meshgrid coordinates with the sorted element
coordinates, axis by axis, and assert the conjunction. -/
def plaidCheck (xe ye : List α) : Except PyErr Unit :=
  match numpyAllEq (npsort (gridXFlat xe ye)) (npsort xe) with
  | .error e => .error e
  | .ok t1 =>
    match numpyAllEq (npsort (gridYFlat xe ye)) (npsort ye) with
    | .error e => .error e
    | .ok t2 => if t1 && t2 then .ok () else .error .assertPlaid

/-- Cartesian product of two coordinate lists, in row-major order. -/
def cartProd (xs ys : List α) : List (α × α) :=
  xs.flatMap fun x => ys.map fun y => (x, y)

/-- Modelled from the spec: the element coordinate pairs form a *plaid
grid* when their multiset equals the Cartesian product of the distinct
x-values and the distinct y-values (every combination present, no extras,
no gaps). -/
def isPlaid (xe ye : List α) : Prop :=
  (↑(xe.zip ye) : Multiset (α × α)) = ↑(cartProd xe.dedup ye.dedup)

instance isPlaidDecidable (xe ye : List α) : Decidable (isPlaid xe ye) :=
  inferInstanceAs (Decidable (_ = _))

end PlaidGrid

noncomputable section

open Real

/-- `np.hypot`. -/
def hypot (x y : ℝ) : ℝ := Real.sqrt (x ^ 2 + y ^ 2)

/-- `np.arctan2 y x`, modelled by the argument of the complex number x + iy. -/
def atan2 (y x : ℝ) : ℝ := Complex.arg ⟨x, y⟩

/-- `np.min` of a row vector (the source only applies it to nonempty rows). -/
def listMin : List ℝ → ℝ
  | [] => 0
  | x :: xs => xs.foldl min x

/-- Output normalization (line 264): `delays - np.min(delays, -1)`,
applied to one row. -/
def normalize (l : List ℝ) : List ℝ := l.map fun d => d - listMin l

/-- `np.cross` of two 3-vectors. -/
def cross3 (a b : ℝ × ℝ × ℝ) : ℝ × ℝ × ℝ :=
  (a.2.1 * b.2.2 - a.2.2 * b.2.1,
   a.2.2 * b.1 - a.1 * b.2.2,
   a.1 * b.2.1 - a.2.1 * b.1)

/-- `np.linalg.norm` of a 3-vector. -/
def norm3 (a : ℝ × ℝ × ℝ) : ℝ := Real.sqrt (a.1 ^ 2 + a.2.1 ^ 2 + a.2.2 ^ 2)

/-- Componentwise difference of 3-vectors. -/
def sub3 (a b : ℝ × ℝ × ℝ) : ℝ × ℝ × ℝ := (a.1 - b.1, a.2.1 - b.2.1, a.2.2 - b.2.2)

/-- Point-focus raw delays (lines 254 and 262):
`d = sqrt((xe-x0)**2 + (ye-y0)**2 + z0**2)`, `delays = -d/c*np.sign(z0)`. -/
def pointFocusRaw (xe ye : List ℝ) (x0 y0 z0 c : ℝ) : List ℝ :=
  List.zipWith
    (fun xi yi => -Real.sqrt ((xi - x0) ^ 2 + (yi - y0) ^ 2 + z0 ^ 2) / c * Real.sign z0)
    xe ye

/-- Distance from the element point (xi, yi, 0) to the line through p1 and
p2 (line 259): `norm(cross(X-x1, X-x2)) / norm(x2-x1)`. -/
def lineDistance (xi yi : ℝ) (p1 p2 : ℝ × ℝ × ℝ) : ℝ :=
  norm3 (cross3 (sub3 (xi, yi, 0) p1) (sub3 (xi, yi, 0) p2)) / norm3 (sub3 p2 p1)

/-- One broadcast row of the line-focus raw delays (line 262): the row for
target k is `-d/c*np.sign(z0[k])`, with `d` independent of k. -/
def lineFocusRawRow (xe ye : List ℝ) (p1 p2 : ℝ × ℝ × ℝ) (z0k c : ℝ) : List ℝ :=
  List.zipWith (fun xi yi => -lineDistance xi yi p1 p2 / c * Real.sign z0k) xe ye

/-- The focus branch of `txdelay3` (lines 248-264), returning the list of
normalized delay rows. With targets of equal length other than 1 or 2 the
source evaluates a `ValueError` without raising it and then crashes with an
`UnboundLocalError` on the never-assigned local `d`. -/
def origo (xe ye : List ℝ) (x0 y0 z0 : List ℝ) (c : ℝ) : Except PyErr (List (List ℝ)) :=
  if x0.length = y0.length ∧ y0.length = z0.length then
    match x0, y0, z0 with
    | [a], [b], [z] => .ok [normalize (pointFocusRaw xe ye a b z c)]
    | [a1, a2], [b1, b2], [z1, z2] =>
        .ok [normalize (lineFocusRawRow xe ye (a1, b1, z1) (a2, b2, z2) z1 c),
             normalize (lineFocusRawRow xe ye (a1, b1, z1) (a2, b2, z2) z2 c)]
    | _, _, _ => .error .unboundLocal
  else .error .assertSameLength

/-- Plane-wave raw delays (line 198): `(xe*sin(tilty) - ye*sin(tiltx))/c`. -/
def planeWaveRaw (xe ye : List ℝ) (tiltx tilty c : ℝ) : List ℝ :=
  List.zipWith (fun xi yi => (xi * Real.sin tilty - yi * Real.sin tiltx) / c) xe ye

/-- The plane-wave branch (lines 192-198) followed by normalization. -/
def planeWave (xe ye : List ℝ) (tiltx tilty c : ℝ) : Except PyErr (List ℝ) :=
  if |tiltx| < Real.pi / 2 ∧ |tilty| < Real.pi / 2 then
    .ok (normalize (planeWaveRaw xe ye tiltx tilty c))
  else .error .assertTilt

/-- The rectangular-aperture solid angle (lines 270-295). -/
def solidAngle (r l b az el : ℝ) : ℝ :=
  let L1 := l / 2 + r * Real.cos el * Real.cos az
  let L2 := -l / 2 + r * Real.cos el * Real.cos az
  let B1 := b / 2 + r * Real.cos el * Real.sin az
  let B2 := b / 2 - r * Real.cos el * Real.sin az
  let H := r * Real.sin el
  let w := fun L B => Real.arcsin (L * B / hypot L H / hypot B H)
  w L1 B1 + w L1 B2 - w L2 B1 - w L2 B2

/-- Modelled from the spec: the Khadjavi/Rajpoot closed form exactly as the
specification writes it, to be compared with `solidAngle`. -/
def solidAngleSpec (r l b az el : ℝ) : ℝ :=
  let L1 := l / 2 + r * Real.cos el * Real.cos az
  let L2 := -l / 2 + r * Real.cos el * Real.cos az
  let B1 := b / 2 + r * Real.cos el * Real.sin az
  let B2 := b / 2 - r * Real.cos el * Real.sin az
  let H := r * Real.sin el
  let w := fun L B => Real.arcsin (L * B / hypot L H / hypot B H)
  w L1 B1 + w L1 B2 - w L2 B1 - w L2 B2

/-- The `utils.Param` structure, restricted to the fields `txdelay3`
reads or writes. `none` stands for an absent field. -/
structure Param where
  elementsX : List ℝ
  elementsY : List ℝ
  width : Option ℝ
  height : Option ℝ
  c : Option ℝ
  TXdelay : Option (List (List ℝ))

/-- One call's worth of mode-specific arguments. In the diverging mode the
scalar `r` stands for the output of the bounded root search
`scipy.optimize.fminbound(|solidAngle(r) - omega|, 0, 2*pi)`: every theorem
quantifies over it, so it covers whatever the solver returns. -/
inductive CallArgs
  | focus (x0 y0 z0 : List ℝ)
  | plane (tiltx tilty : ℝ)
  | diverging (tiltx tilty omega r : ℝ)

/-- The virtual-source position of the diverging-wave branch (lines
217-244): rotate (0,0,-1) by the tilts, convert to azimuth/elevation, and
place the source at the solved radius `r` along that direction. -/
def virtualSource (tiltx tilty r : ℝ) : ℝ × ℝ × ℝ :=
  let xd := -Real.sin tilty * Real.cos tiltx
  let yd := Real.sin tiltx
  let zd := -(Real.cos tilty) * Real.cos tiltx
  let az := atan2 yd xd
  let el := atan2 zd (Real.sqrt (xd ^ 2 + yd ^ 2))
  (r * Real.cos el * Real.cos az, r * Real.cos el * Real.sin az, r * Real.sin el)

/-- The diverging-wave branch (lines 200-245): validation, plaid-grid
check, virtual-source placement from the solved radius `r`, recursive
focused call, and the final (second) normalization the fall-through at
line 264 applies to the already-normalized recursive result. -/
def divergingBody (p : Param) (tiltx tilty omega r c : ℝ) : Except PyErr (List (List ℝ)) :=
  if |tiltx| < Real.pi / 2 ∧ |tilty| < Real.pi / 2 then
    if omega ≤ 2 * Real.pi then
      if 0 ≤ omega then
        match plaidCheck p.elementsX p.elementsY with
        | .error e => .error e
        | .ok _ =>
          match p.width, p.height with
          | some _, some _ =>
            match origo p.elementsX p.elementsY [(virtualSource tiltx tilty r).1]
                [(virtualSource tiltx tilty r).2.1] [(virtualSource tiltx tilty r).2.2] c with
            | .ok ds => .ok (ds.map normalize)
            | .error e => .error e
          | _, _ => .error .missingAttr
      else .error .assertSolidAngle
    else .error .assertSolidAngle
  else .error .assertTilt

/-- The whole call: default the velocity (writing it into the structure,
line 184), run the selected branch, store the result in `PARAM.TXdelay`
(line 266) and return it together with the updated structure. -/
def txdelay3 (p : Param) (args : CallArgs) : Except PyErr (List (List ℝ) × Param) :=
  let cval := p.c.getD 1540
  let p1 : Param := { p with c := some cval }
  match args with
  | .focus x0 y0 z0 =>
    match origo p1.elementsX p1.elementsY x0 y0 z0 cval with
    | .ok ds => .ok (ds, { p1 with TXdelay := some ds })
    | .error e => .error e
  | .plane tiltx tilty =>
    match planeWave p1.elementsX p1.elementsY tiltx tilty cval with
    | .ok ds => .ok ([ds], { p1 with TXdelay := some [ds] })
    | .error e => .error e
  | .diverging tiltx tilty omega r =>
    match divergingBody p1 tiltx tilty omega r cval with
    | .ok ds => .ok (ds, { p1 with TXdelay := some ds })
    | .error e => .error e

/-- A one-element array with no velocity field, used as concrete input. -/
def pNoC : Param :=
  { elementsX := [2], elementsY := [3], width := none, height := none,
    c := none, TXdelay := none }

end

/-! ## Helper lemmas: list minimum and normalization -/

theorem foldl_min_le_init (xs : List ℝ) : ∀ a : ℝ, xs.foldl min a ≤ a := by
  induction xs with
  | nil => intro a; simp
  | cons y ys ih =>
    intro a
    simp only [List.foldl_cons]
    exact le_trans (ih (min a y)) (min_le_left a y)

theorem foldl_min_le_mem {x : ℝ} (xs : List ℝ) : ∀ a : ℝ, x ∈ xs → xs.foldl min a ≤ x := by
  induction xs with
  | nil => intro a h; simp at h
  | cons y ys ih =>
    intro a h
    simp only [List.foldl_cons]
    rcases List.mem_cons.mp h with h1 | h2
    · subst h1
      exact le_trans (foldl_min_le_init ys (min a x)) (min_le_right a x)
    · exact ih (min a y) h2

theorem foldl_min_mem (xs : List ℝ) : ∀ a : ℝ, xs.foldl min a = a ∨ xs.foldl min a ∈ xs := by
  induction xs with
  | nil => intro a; left; rfl
  | cons y ys ih =>
    intro a
    simp only [List.foldl_cons]
    rcases ih (min a y) with h | h
    · rcases min_cases a y with ⟨h2, _⟩ | ⟨h2, _⟩
      · left; rw [h, h2]
      · right; rw [h, h2]; exact List.mem_cons_self y ys
    · right; exact List.mem_cons_of_mem y h

theorem listMin_le {x : ℝ} {l : List ℝ} (hx : x ∈ l) : listMin l ≤ x := by
  cases l with
  | nil => simp at hx
  | cons y ys =>
    rcases List.mem_cons.mp hx with h1 | h2
    · subst h1; exact foldl_min_le_init ys x
    · exact foldl_min_le_mem ys y h2

theorem listMin_mem {l : List ℝ} (h : l ≠ []) : listMin l ∈ l := by
  cases l with
  | nil => exact absurd rfl h
  | cons y ys =>
    rcases foldl_min_mem ys y with h1 | h1
    · rw [listMin, h1]; exact List.mem_cons_self y ys
    · exact List.mem_cons_of_mem y h1

theorem foldl_min_map_sub (xs : List ℝ) :
    ∀ a cst : ℝ, (xs.map fun d => d - cst).foldl min (a - cst) = xs.foldl min a - cst := by
  induction xs with
  | nil => intro a cst; rfl
  | cons y ys ih =>
    intro a cst
    simp only [List.map_cons, List.foldl_cons]
    rw [min_sub_sub_right, ih]

theorem listMin_map_sub {l : List ℝ} (cst : ℝ) (h : l ≠ []) :
    listMin (l.map fun d => d - cst) = listMin l - cst := by
  cases l with
  | nil => exact absurd rfl h
  | cons x xs => simpa [listMin] using foldl_min_map_sub xs x cst

theorem listMin_normalize {l : List ℝ} (h : l ≠ []) : listMin (normalize l) = 0 := by
  rw [normalize, listMin_map_sub (listMin l) h, sub_self]

theorem normalize_nonneg {l : List ℝ} {x : ℝ} (hx : x ∈ normalize l) : 0 ≤ x := by
  rcases List.mem_map.mp hx with ⟨y, hy, rfl⟩
  exact sub_nonneg.mpr (listMin_le hy)

theorem normalize_singleton (a : ℝ) : normalize [a] = [0] := by
  simp [normalize, listMin]

theorem length_normalize (l : List ℝ) : (normalize l).length = l.length := by
  simp [normalize]

theorem normalize_ne_nil {l : List ℝ} (h : l ≠ []) : normalize l ≠ [] := by
  intro hc
  exact h (List.length_eq_zero.mp (by rw [← length_normalize l, hc]; rfl))

theorem normalize_idem (l : List ℝ) : normalize (normalize l) = normalize l := by
  by_cases h : l = []
  · subst h; rfl
  · conv =>
      lhs
      rw [normalize]
      rw [listMin_normalize h]
    simp

theorem normalize_replicate_zero (n : ℕ) :
    normalize (List.replicate n (0 : ℝ)) = List.replicate n 0 := by
  cases n with
  | zero => rfl
  | succ m =>
    have hmem : listMin (List.replicate (m + 1) (0 : ℝ)) ∈ List.replicate (m + 1) (0 : ℝ) :=
      listMin_mem (by simp)
    have h0 : listMin (List.replicate (m + 1) (0 : ℝ)) = 0 := List.eq_of_mem_replicate hmem
    rw [normalize, h0]
    simp

theorem zipWith_ne_nil {f : ℝ → ℝ → ℝ} {xe ye : List ℝ} (hx : xe ≠ []) (hy : ye ≠ []) :
    List.zipWith f xe ye ≠ [] := by
  cases xe with
  | nil => exact absurd rfl hx
  | cons a as =>
    cases ye with
    | nil => exact absurd rfl hy
    | cons b bs => simp

theorem zipWith_zero_fun (xe : List ℝ) :
    ∀ ye : List ℝ,
      List.zipWith (fun _ _ => (0 : ℝ)) xe ye = List.replicate (min xe.length ye.length) 0 := by
  induction xe with
  | nil => intro ye; simp
  | cons a as ih =>
    intro ye
    cases ye with
    | nil => simp
    | cons b bs =>
      simp only [List.zipWith_cons_cons, List.length_cons, Nat.succ_min_succ,
        List.replicate_succ, ih bs]

/-! ## Claim theorems -/

/-- C2: for a point focus, every pre-normalization delay is
`-sqrt((xi - x0)^2 + (yi - y0)^2 + z0^2) / c * sign z0`, and negating `z0`
negates every pre-normalization delay. -/
theorem pointFocus_delay_law (xe ye : List ℝ) (x0 y0 z0 c : ℝ) :
    pointFocusRaw xe ye x0 y0 z0 c =
      List.zipWith
        (fun xi yi => -Real.sqrt ((xi - x0) ^ 2 + (yi - y0) ^ 2 + z0 ^ 2) / c * Real.sign z0)
        xe ye
    ∧ pointFocusRaw xe ye x0 y0 (-z0) c = (pointFocusRaw xe ye x0 y0 z0 c).map fun d => -d := by
  constructor
  · rfl
  · unfold pointFocusRaw
    rw [List.map_zipWith]
    congr 1
    funext xi yi
    rw [Real.sign_neg, neg_sq]
    ring

/-- C10: a point focus exactly in the array plane (z0 = 0) does not fail:
since sign 0 = 0 every raw delay is 0, and the returned normalized vector
all zero for any geometry. -/
theorem pointFocus_z0_zero (xe ye : List ℝ) (x0 y0 c : ℝ) :
    pointFocusRaw xe ye x0 y0 0 c = List.replicate (min xe.length ye.length) 0
    ∧ origo xe ye [x0] [y0] [0] c = .ok [List.replicate (min xe.length ye.length) 0] := by
  have hraw : pointFocusRaw xe ye x0 y0 0 c = List.replicate (min xe.length ye.length) 0 := by
    unfold pointFocusRaw
    simp only [Real.sign_zero, mul_zero]
    exact zipWith_zero_fun xe ye
  refine ⟨hraw, ?_⟩
  have h2 : origo xe ye [x0] [y0] [(0 : ℝ)] c = .ok [normalize (pointFocusRaw xe ye x0 y0 0 c)] :=
    rfl
  rw [h2, hraw, normalize_replicate_zero]

/-- C3: for scalar tilt angles with |tiltx|, |tilty| < pi/2 the plane-wave
branch succeeds with raw delays `(xi*sin(tilty) - yi*sin(tiltx))/c`, and at
zero tilt the returned normalized vector is all zeros for any geometry. -/
theorem planeWave_delay_law (xe ye : List ℝ) (tiltx tilty c : ℝ)
    (hx : |tiltx| < Real.pi / 2) (hy : |tilty| < Real.pi / 2) :
    planeWave xe ye tiltx tilty c =
      .ok (normalize
        (List.zipWith (fun xi yi => (xi * Real.sin tilty - yi * Real.sin tiltx) / c) xe ye))
    ∧ planeWave xe ye 0 0 c = .ok (List.replicate (min xe.length ye.length) 0) := by
  have h0 : |(0 : ℝ)| < Real.pi / 2 := by
    rw [abs_zero]
    positivity
  constructor
  · unfold planeWave
    rw [if_pos ⟨hx, hy⟩]
    rfl
  · unfold planeWave
    rw [if_pos ⟨h0, h0⟩]
    have hraw : planeWaveRaw xe ye 0 0 c = List.replicate (min xe.length ye.length) 0 := by
      unfold planeWaveRaw
      simp only [Real.sin_zero, mul_zero, sub_zero, zero_div]
      exact zipWith_zero_fun xe ye
    rw [hraw, normalize_replicate_zero]

/-- C3 witness: a concrete two-element geometry at zero tilt yields the
all-zero delay vector. -/
theorem planeWave_delay_law_witness :
    planeWave [1, 2] [5, 7] 0 0 1540 = .ok [0, 0] := by
  have h0 : |(0 : ℝ)| < Real.pi / 2 := by
    rw [abs_zero]
    positivity
  have h := (planeWave_delay_law [1, 2] [5, 7] 0 0 1540 h0 h0).2
  simpa using h

/-- C4: the Solid-Angle Evaluator is a pure function of (r, l, b, az, el)
returning exactly the closed form the spec states. -/
theorem solidAngle_eq_spec (r l b az el : ℝ) :
    solidAngle r l b az el = solidAngleSpec r l b az el := rfl

/-- C7 (code bug): a call whose arity matches no mode does not fail with the
`InvalidArguments` ValueError: that exception is constructed without being
raised, so an arity-2 call crashes with an `UnboundLocalError` on `param`,
and no argument list whatsoever can produce the `InvalidArguments` error. -/
theorem dispatch_invalid_args_bug :
    dispatch [Arg.param, Arg.num] = .error .unboundLocal
    ∧ ∀ a : List Arg, dispatch a ≠ .error .valueErrorWrongArgs := by
  refine ⟨rfl, ?_⟩
  intro a h
  revert h
  unfold dispatch
  split
  · split_ifs <;> simp
  · split_ifs <;> simp
  · simp

/-- C8 (code bug): unequal target lengths do fail with the same-length
assertion (the `MismatchedTargetLength` realization), but an equal common
length other than 1 or 2 crashes with an `UnboundLocalError` on `d` because
the `ValueError` for that case is constructed without being raised; that
ValueError is unreachable for every input. -/
theorem origo_target_length_bug :
    origo [0] [0] [1, 2, 3] [1, 2, 3] [1, 2, 3] 1540 = .error .unboundLocal
    ∧ origo [0] [0] [1] [1, 2] [1] 1540 = .error .assertSameLength
    ∧ ∀ xe ye x0 y0 z0 c, origo xe ye x0 y0 z0 c ≠ .error .valueErrorTargetLen := by
  refine ⟨rfl, rfl, ?_⟩
  intro xe ye x0 y0 z0 c h
  revert h
  unfold origo
  split
  · split <;> simp
  · simp

/-- C6 (code bug): in line-focus mode `np.sign(z0)` is a (2,1) array, so
the delays broadcast to two rows, one per target, each normalized against
its own minimum: a one-element array yields the 2 x 1 result [[0], [0]],
not one delay per element. Each row does follow the claimed
point-to-line-distance law. -/
theorem lineFocus_shape_bug :
    origo [0] [0] [0, 1] [0, 0] [1, 1] 1 = .ok [[0], [0]]
    ∧ ∀ p1 p2 z0k c,
        lineFocusRawRow [0] [0] p1 p2 z0k c =
          [-lineDistance 0 0 p1 p2 / c * Real.sign z0k] := by
  constructor
  · have h0 : origo [0] [0] [0, 1] [0, 0] [(1 : ℝ), 1] 1 =
        .ok [normalize (lineFocusRawRow [0] [0] (0, 0, 1) (1, 0, 1) 1 1),
             normalize (lineFocusRawRow [0] [0] (0, 0, 1) (1, 0, 1) 1 1)] := rfl
    rw [h0]
    simp [lineFocusRawRow, normalize_singleton]
  · intro p1 p2 z0k c
    rfl

/-! ## Plaid-grid lemmas -/

theorem npsort_congr {α : Type} [LinearOrder α] {l1 l2 : List α} (h : l1.Perm l2) :
    npsort l1 = npsort l2 := by
  unfold npsort
  exact List.eq_of_perm_of_sorted
    (((List.perm_insertionSort (· ≤ ·) l1).trans h).trans
      (List.perm_insertionSort (· ≤ ·) l2).symm)
    (List.sorted_insertionSort (· ≤ ·) l1) (List.sorted_insertionSort (· ≤ ·) l2)

theorem count_flatMap_replicate {α : Type} [DecidableEq α] (n : ℕ) (a : α) :
    ∀ l : List α, ((l.flatMap fun x => List.replicate n x).count a) = n * l.count a := by
  intro l
  induction l with
  | nil => simp
  | cons x xs ih =>
    rw [List.flatMap_cons, List.count_append, ih, List.count_cons, List.count_replicate]
    split_ifs <;> ring

theorem count_flatten_replicate {α : Type} [DecidableEq α] (a : α) (l : List α) :
    ∀ n : ℕ, (((List.replicate n l).flatten).count a) = n * l.count a := by
  intro n
  induction n with
  | zero => simp
  | succ m ih =>
    rw [List.replicate_succ, List.flatten_cons, List.count_append, ih]
    ring

theorem count_flatMap_const {α : Type} [DecidableEq α] (a : α) (ys : List α) :
    ∀ xs : List α, ((xs.flatMap fun _ => ys).count a) = xs.length * ys.count a := by
  intro xs
  induction xs with
  | nil => simp
  | cons x xs ih =>
    rw [List.flatMap_cons, List.count_append, ih, List.length_cons]
    ring

theorem cartProd_map_fst {α : Type} [LinearOrder α] [DecidableEq α] (xs ys : List α) :
    (cartProd xs ys).map Prod.fst = xs.flatMap fun x => List.replicate ys.length x := by
  unfold cartProd
  rw [List.map_flatMap]
  congr 1
  funext x
  rw [List.map_map]
  simp [Function.comp_def]

theorem cartProd_map_snd {α : Type} [LinearOrder α] [DecidableEq α] (xs ys : List α) :
    (cartProd xs ys).map Prod.snd = xs.flatMap fun _ => ys := by
  unfold cartProd
  rw [List.map_flatMap]
  congr 1
  funext x
  rw [List.map_map]
  simp [Function.comp_def]

theorem numpyAllEq_self {α : Type} [LinearOrder α] [DecidableEq α] (l : List α) :
    numpyAllEq l l = .ok true := by
  unfold numpyAllEq
  rw [if_pos rfl]
  simp

/-- C5 counterexample: the element layout with x = [0,0,1,1], y = [0,0,1,1]
(the diagonal points (0,0) and (1,1) duplicated) is not a plaid grid, yet
the code's check passes it, so `NonPlaidGrid` does not fire exactly on
non-plaid layouts. -/
theorem plaid_check_cex :
    plaidCheck ([0, 0, 1, 1] : List ℚ) [0, 0, 1, 1] = .ok ()
    ∧ ¬ isPlaid ([0, 0, 1, 1] : List ℚ) [0, 0, 1, 1] := by
  constructor
  · rfl
  · decide

/-- C5 amended: the check never fails on a true plaid grid, in any point
order (the code tests only the sorted x- and y-coordinate multisets, which
a plaid grid always satisfies; some non-plaid layouts satisfy it too). -/
theorem plaid_check_sound (xe ye : List ℚ) (hlen : xe.length = ye.length)
    (h : isPlaid xe ye) : plaidCheck xe ye = .ok () := by
  have hp : (xe.zip ye).Perm (cartProd xe.dedup ye.dedup) := Multiset.coe_eq_coe.mp h
  have hx : xe.Perm ((cartProd xe.dedup ye.dedup).map Prod.fst) := by
    have h1 := hp.map Prod.fst
    rwa [List.map_fst_zip xe ye (le_of_eq hlen)] at h1
  have hy : ye.Perm ((cartProd xe.dedup ye.dedup).map Prod.snd) := by
    have h1 := hp.map Prod.snd
    rwa [List.map_snd_zip xe ye (le_of_eq hlen.symm)] at h1
  have hcx : ∀ a : ℚ, (gridXFlat xe ye).count a = xe.count a := by
    intro a
    have h1 : (gridXFlat xe ye).count a = (npunique ye).length * (npunique xe).count a :=
      count_flatten_replicate a (npunique xe) (npunique ye).length
    have h2 : (npunique xe).count a = xe.dedup.count a :=
      (List.perm_insertionSort (· ≤ ·) xe.dedup).count_eq a
    have h3 : (npunique ye).length = ye.dedup.length :=
      (List.perm_insertionSort (· ≤ ·) ye.dedup).length_eq
    have h4 : xe.count a = ye.dedup.length * xe.dedup.count a := by
      rw [hx.count_eq a, cartProd_map_fst, count_flatMap_replicate]
    rw [h1, h2, h3, h4]
  have hcy : ∀ a : ℚ, (gridYFlat xe ye).count a = ye.count a := by
    intro a
    have h1 : (gridYFlat xe ye).count a = (npunique xe).length * (npunique ye).count a :=
      count_flatMap_replicate (npunique xe).length a (npunique ye)
    have h2 : (npunique ye).count a = ye.dedup.count a :=
      (List.perm_insertionSort (· ≤ ·) ye.dedup).count_eq a
    have h3 : (npunique xe).length = xe.dedup.length :=
      (List.perm_insertionSort (· ≤ ·) xe.dedup).length_eq
    have h4 : ye.count a = xe.dedup.length * ye.dedup.count a := by
      rw [hy.count_eq a, cartProd_map_snd, count_flatMap_const]
    rw [h1, h2, h3, h4]
  have hpx : (gridXFlat xe ye).Perm xe := List.perm_iff_count.mpr hcx
  have hpy : (gridYFlat xe ye).Perm ye := List.perm_iff_count.mpr hcy
  unfold plaidCheck
  rw [npsort_congr hpx, npsort_congr hpy, numpyAllEq_self, numpyAllEq_self]
  rfl

/-- C5 amended, witness: a concrete 2 x 2 plaid grid listed in scrambled
order passes the check. -/
theorem plaid_check_sound_witness :
    plaidCheck ([1, 0, 1, 0] : List ℚ) [5, 5, 7, 7] = .ok () :=
  plaid_check_sound [1, 0, 1, 0] [5, 5, 7, 7] (by decide) (by decide)

/-! ## Runner evaluations and success-path structure -/

theorem txdelay3_pNoC_run :
    txdelay3 pNoC (.focus [0] [0] [1]) =
      .ok ([[0]],
        { elementsX := [2], elementsY := [3], width := none, height := none,
          c := some 1540, TXdelay := some [[0]] }) := by
  have h1 : pointFocusRaw [2] [3] 0 0 1 1540 =
      [-Real.sqrt ((2 - 0) ^ 2 + (3 - 0) ^ 2 + 1 ^ 2) / 1540 * Real.sign 1] := rfl
  have h2 : origo [2] [3] [0] [0] [(1 : ℝ)] 1540 = .ok [[0]] := by
    have h0 : origo [2] [3] [0] [0] [(1 : ℝ)] 1540 =
        .ok [normalize (pointFocusRaw [2] [3] 0 0 1 1540)] := rfl
    rw [h0, h1, normalize_singleton]
  have h3 : txdelay3 pNoC (.focus [0] [0] [1]) =
      match origo [2] [3] [0] [0] [(1 : ℝ)] 1540 with
      | .ok ds =>
          .ok (ds,
            { elementsX := [2], elementsY := [3], width := none, height := none,
              c := some 1540, TXdelay := some ds })
      | .error e => .error e := rfl
  rw [h3, h2]

/-- C9 counterexample: a configuration supplied without a velocity field
comes back from a successful call with `c` written (set to the default
1540), a field other than `TXdelay`. -/
theorem param_write_cex :
    pNoC.c = none
    ∧ (txdelay3 pNoC (.focus [0] [0] [1])).map (fun res => res.2.c) = .ok (some 1540) := by
  refine ⟨rfl, ?_⟩
  rw [txdelay3_pNoC_run]
  rfl

/-- C9 amended: a successful call leaves the element geometry, width,
height, and any supplied velocity unchanged, and writes exactly the
`TXdelay` field plus, when the velocity was absent, the default c = 1540. -/
theorem param_write_amended (p : Param) (args : CallArgs) (ds : List (List ℝ)) (p2 : Param)
    (h : txdelay3 p args = .ok (ds, p2)) :
    p2.elementsX = p.elementsX ∧ p2.elementsY = p.elementsY ∧ p2.width = p.width
    ∧ p2.height = p.height ∧ p2.c = some (p.c.getD 1540)
    ∧ (∀ v, p.c = some v → p2.c = some v) ∧ p2.TXdelay = some ds := by
  cases args with
  | focus x0 y0 z0 =>
    simp only [txdelay3] at h
    split at h
    · simp only [Except.ok.injEq, Prod.mk.injEq] at h
      obtain ⟨rfl, rfl⟩ := h
      refine ⟨rfl, rfl, rfl, rfl, rfl, ?_, rfl⟩
      intro v hv
      rw [hv]
      rfl
    · exact Except.noConfusion h
  | plane tiltx tilty =>
    simp only [txdelay3] at h
    split at h
    · simp only [Except.ok.injEq, Prod.mk.injEq] at h
      obtain ⟨rfl, rfl⟩ := h
      refine ⟨rfl, rfl, rfl, rfl, rfl, ?_, rfl⟩
      intro v hv
      rw [hv]
      rfl
    · exact Except.noConfusion h
  | diverging tiltx tilty omega r =>
    simp only [txdelay3] at h
    split at h
    · simp only [Except.ok.injEq, Prod.mk.injEq] at h
      obtain ⟨rfl, rfl⟩ := h
      refine ⟨rfl, rfl, rfl, rfl, rfl, ?_, rfl⟩
      intro v hv
      rw [hv]
      rfl
    · exact Except.noConfusion h

/-- C9 amended, witness: the concrete run on `pNoC` keeps the geometry and
stores the result under TXdelay. -/
theorem param_write_amended_witness :
    ({ elementsX := [2], elementsY := [3], width := none, height := none,
       c := some 1540, TXdelay := some [[0]] } : Param).TXdelay = some [[0]] := by
  have h := param_write_amended pNoC (.focus [0] [0] [1]) [[0]]
    { elementsX := [2], elementsY := [3], width := none, height := none,
      c := some 1540, TXdelay := some [[0]] } txdelay3_pNoC_run
  exact h.2.2.2.2.2.2

theorem origo_rows {xe ye : List ℝ} {x0 y0 z0 : List ℝ} {c : ℝ} {ds : List (List ℝ)}
    (hx : xe ≠ []) (hy : ye ≠ []) (h : origo xe ye x0 y0 z0 c = .ok ds) :
    ∀ row ∈ ds, ∃ raw, raw ≠ [] ∧ row = normalize raw := by
  unfold origo at h
  split at h
  · split at h
    · injection h with h
      subst h
      intro row hrow
      rw [List.mem_singleton] at hrow
      subst hrow
      exact ⟨_, zipWith_ne_nil hx hy, rfl⟩
    · injection h with h
      subst h
      intro row hrow
      rw [List.mem_cons, List.mem_singleton] at hrow
      rcases hrow with rfl | rfl
      · exact ⟨_, zipWith_ne_nil hx hy, rfl⟩
      · exact ⟨_, zipWith_ne_nil hx hy, rfl⟩
    · exact Except.noConfusion h
  · exact Except.noConfusion h

theorem planeWave_row {xe ye : List ℝ} {tiltx tilty c : ℝ} {row : List ℝ}
    (hx : xe ≠ []) (hy : ye ≠ []) (h : planeWave xe ye tiltx tilty c = .ok row) :
    ∃ raw, raw ≠ [] ∧ row = normalize raw := by
  unfold planeWave at h
  split_ifs at h
  injection h with h
  exact ⟨planeWaveRaw xe ye tiltx tilty c, zipWith_ne_nil hx hy, h.symm⟩

theorem divergingBody_rows {p : Param} {tiltx tilty omega r c : ℝ} {ds : List (List ℝ)}
    (hx : p.elementsX ≠ []) (hy : p.elementsY ≠ [])
    (h : divergingBody p tiltx tilty omega r c = .ok ds) :
    ∀ row ∈ ds, ∃ raw, raw ≠ [] ∧ row = normalize raw := by
  unfold divergingBody at h
  split_ifs at h
  split at h
  · exact Except.noConfusion h
  · split at h
    · split at h
      case _ ds' heq =>
        injection h with h
        subst h
        intro row hrow
        rcases List.mem_map.mp hrow with ⟨row', hrow', rfl⟩
        obtain ⟨raw, hraw, rfl⟩ := origo_rows hx hy heq row' hrow'
        exact ⟨normalize raw, normalize_ne_nil hraw, rfl⟩
      case _ e heq => exact Except.noConfusion h
    · exact Except.noConfusion h

/-- C1: every successful call, in each beam mode, returns rows that are
exactly the raw mode-specific delays shifted down by their row minimum:
each returned row has minimum exactly 0 and only nonnegative entries. -/
theorem delays_normalized (p : Param) (args : CallArgs) (ds : List (List ℝ)) (p2 : Param)
    (hx : p.elementsX ≠ []) (hy : p.elementsY ≠ [])
    (h : txdelay3 p args = .ok (ds, p2)) :
    ∀ row ∈ ds,
      (∃ raw, raw ≠ [] ∧ row = raw.map fun d => d - listMin raw)
      ∧ listMin row = 0 ∧ ∀ d ∈ row, 0 ≤ d := by
  have key : ∀ row ∈ ds, ∃ raw, raw ≠ [] ∧ row = normalize raw := by
    cases args with
    | focus x0 y0 z0 =>
      simp only [txdelay3] at h
      split at h
      case _ ds' heq =>
        simp only [Except.ok.injEq, Prod.mk.injEq] at h
        obtain ⟨rfl, rfl⟩ := h
        exact origo_rows hx hy heq
      case _ e heq => exact Except.noConfusion h
    | plane tiltx tilty =>
      simp only [txdelay3] at h
      split at h
      case _ row' heq =>
        simp only [Except.ok.injEq, Prod.mk.injEq] at h
        obtain ⟨rfl, rfl⟩ := h
        intro row hrow
        rw [List.mem_singleton] at hrow
        subst hrow
        exact planeWave_row hx hy heq
      case _ e heq => exact Except.noConfusion h
    | diverging tiltx tilty omega r =>
      simp only [txdelay3] at h
      split at h
      case _ ds' heq =>
        simp only [Except.ok.injEq, Prod.mk.injEq] at h
        obtain ⟨rfl, rfl⟩ := h
        exact divergingBody_rows hx hy heq
      case _ e heq => exact Except.noConfusion h
  intro row hrow
  obtain ⟨raw, hraw, rfl⟩ := key row hrow
  exact ⟨⟨raw, hraw, rfl⟩, listMin_normalize hraw, fun d hd => normalize_nonneg hd⟩

/-- C1 witness: the concrete focused run on `pNoC` returns the single row
[0], whose minimum is 0. -/
theorem delays_normalized_witness : listMin [(0 : ℝ)] = 0 := by
  have h := delays_normalized pNoC (.focus [0] [0] [1]) [[0]]
    { elementsX := [2], elementsY := [3], width := none, height := none,
      c := some 1540, TXdelay := some [[0]] }
    (by simp [pNoC]) (by simp [pNoC]) txdelay3_pNoC_run
  exact (h [0] (List.mem_singleton.mpr rfl)).2.1

end PyMUST
